import Mathlib

/-!
Verification of the namra/nexus agent execution engine.

Rust strings are modelled as `List Char` (byte indices coincide with character
indices on the ASCII inputs the loop manipulates; the order of indices, which is
all the control flow depends on, is preserved in general).  Rust `u32`/`u64`
arithmetic is modelled on `Nat` with an explicit `% 2 ^ 32` / bound check where
the source performs machine arithmetic.  External effects (the LLM client, tool
execution, the wall clock, `serde_json`, `uuid`) are supplied by an explicit
environment record, so the loop itself is a pure function of the environment
and the mutable `ExecutionContext`.
-/

namespace Namra

/-- Rust `&str`, modelled as a list of characters. -/
abbrev Str := List Char

/-- Decidable equality for `Except`, so that concrete runs of the model can be
checked by `decide`. -/
instance {ε α : Type} [DecidableEq ε] [DecidableEq α] :
    DecidableEq (Except ε α) := fun a b =>
  match a, b with
  | .error x, .error y =>
    if h : x = y then isTrue (congrArg Except.error h)
    else isFalse (fun hh => h (Except.error.inj hh))
  | .error _, .ok _ => isFalse (fun hh => Except.noConfusion hh)
  | .ok _, .error _ => isFalse (fun hh => Except.noConfusion hh)
  | .ok x, .ok y =>
    if h : x = y then isTrue (congrArg Except.ok h)
    else isFalse (fun hh => h (Except.ok.inj hh))

/-- Rust `str::trim`: drop whitespace from both ends
(`char::is_whitespace`, modelled by `Char.isWhitespace`). -/
def trim (s : Str) : Str :=
  ((s.dropWhile Char.isWhitespace).reverse.dropWhile Char.isWhitespace).reverse

/-- Rust `str::find(&str)`: index of the first occurrence of `needle`
as a contiguous substring, if any. -/
def findSub (needle : Str) : Str → Option Nat
  | [] => if needle = [] then some 0 else none
  | c :: cs =>
    if needle.isPrefixOf (c :: cs) then some 0
    else (findSub needle cs).map (· + 1)

/-- Rust `str::contains(&str)`. -/
def containsSub (needle s : Str) : Bool :=
  (findSub needle s).isSome

/-- Rust `str::find(char)`. -/
def findChar (c : Char) (s : Str) : Option Nat :=
  findSub [c] s

/-- Rust `str::strip_suffix`: `some` of the remaining prefix when `s`
ends with `suffix`. -/
def stripSuffix (suffix s : Str) : Option Str :=
  if suffix.isSuffixOf s then some (s.take (s.length - suffix.length)) else none

/-- Rust `str::ends_with(&str)`. -/
def endsWithB (suffix s : Str) : Bool :=
  suffix.isSuffixOf s

/-- Rust `u64::from_str`: optional leading `'+'`, then decimal digits; rejects
the empty string and any other character; overflow above `2 ^ 64 - 1` is an
error.  The carried message is the display of the `ParseIntError`. -/
def parse_u64 (s : Str) : Except Str Nat :=
  if s = [] then .error "cannot parse integer from empty string".data
  else
    let digits := match s with
      | '+' :: rest => rest
      | _ => s
    if digits = [] then .error "invalid digit found in string".data
    else if digits.all Char.isDigit then
      let v := digits.foldl (fun acc c => acc * 10 + (c.toNat - '0'.toNat)) 0
      if v < 2 ^ 64 then .ok v
      else .error "number too large to fit in target type".data
    else .error "invalid digit found in string".data

/-- The `"TOOL:"` action marker scanned for by the ReAct strategy. -/
def toolMarker : Str := "TOOL:".data

/-- The `"ANSWER:"` final-answer marker scanned for by the ReAct strategy. -/
def answerMarker : Str := "ANSWER:".data

namespace ReActStrategy

/-- `ReActStrategy::extract_tool_call` (identical in namra-runtime and
nexus-runtime).  `Except Unit` models the possibility of a Rust panic: the
slice `tool_part[paren_pos + 1..end_paren]` panics when the start exceeds the
end, i.e. when the first `')'` of the trimmed tail precedes the first `'('`.
All other paths return `.ok` of the Rust `Option<(String, String)>`. -/
def extract_tool_call (response : Str) : Except Unit (Option (Str × Str)) :=
  match findSub toolMarker response with
  | some tool_start =>
    let tool_part := trim (response.drop (tool_start + 5))
    match findChar '(' tool_part with
    | some paren_pos =>
      match findChar ')' tool_part with
      | some end_paren =>
        if paren_pos + 1 ≤ end_paren then
          let tool_name := trim (tool_part.take paren_pos)
          let argument := trim ((tool_part.take end_paren).drop (paren_pos + 1))
          .ok (some (tool_name, argument))
        else .error ()
      | none => .ok none
    | none => .ok none
  | none => .ok none

/-- `ReActStrategy::is_final_answer`: the response contains `"ANSWER:"`
or does not contain `"TOOL:"`. -/
def is_final_answer (response : Str) : Bool :=
  containsSub answerMarker response || !containsSub toolMarker response

/-- `ReActStrategy::extract_answer`: the trimmed text after the first
`"ANSWER:"` if present, else the whole trimmed response. -/
def extract_answer (response : Str) : Str :=
  match findSub answerMarker response with
  | some answer_pos => trim (response.drop (answer_pos + 7))
  | none => trim response

end ReActStrategy

/-- Outcome of the action-parsing section of one ReAct iteration
(react.rs lines 155–230): try `extract_tool_call` first; otherwise a final
answer when `is_final_answer` holds; otherwise the `InvalidToolCall` branch.
`panicked` records the reversed-slice panic inside `extract_tool_call`. -/
inductive IterDecision
  | toolCall (tool_name argument : Str)
  | finalAnswer (answer : Str)
  | invalid
  | panicked
deriving DecidableEq

/-- The decision structure of one iteration of the ReAct loop, as a function
of the raw model output. -/
def classify (response : Str) : IterDecision :=
  match ReActStrategy.extract_tool_call response with
  | .error _ => .panicked
  | .ok (some (n, a)) => .toolCall n a
  | .ok none =>
    if ReActStrategy.is_final_answer response then
      .finalAnswer (ReActStrategy.extract_answer response)
    else .invalid

/-- `TokenUsage` (nexus-llm types): input/output token counts, `u32` in the
source.  Stored values are kept below `2 ^ 32` by the wrapping addition in
`ExecutionContext.add_tokens`. -/
structure TokenUsage where
  input_tokens : Nat
  output_tokens : Nat
deriving DecidableEq

/-- Message roles of the transcript. -/
inductive MessageRole
  | system
  | user
  | assistant
  | tool
deriving DecidableEq

/-- A role-tagged transcript entry. -/
structure Message where
  role : MessageRole
  content : Str
deriving DecidableEq

/-- A successful LLM reply: content plus token usage. -/
structure LLMResponse where
  content : Str
  usage : TokenUsage
deriving DecidableEq

/-- `ToolResult` as consumed by the loop: content plus a success flag. -/
structure ToolResult where
  content : Str
  success : Bool
deriving DecidableEq

/-- The tool input built from the extracted argument text
(react.rs lines 161–174).  `serde_json::from_str` is external, so a parsed
value is represented by its source text; the two `json!` fallbacks are the
`{"input": raw}` and `{"expression": raw}` wrappings. -/
inductive ToolInput
  | parsed (raw : Str)
  | inputWrapped (raw : Str)
  | expressionWrapped (raw : Str)
deriving DecidableEq

/-- Argument handling of the ReAct loop: a `'\x7b'`-prefixed argument is given
to the JSON parser (abstracted as the predicate `jsonParses`), falling back to
the `{"input": raw}` wrapping on parse failure; any other argument is wrapped
as `{"expression": raw}`. -/
def make_tool_input (jsonParses : Str → Bool) (argument : Str) : ToolInput :=
  if argument.head? = some '\x7b' then
    if jsonParses argument then .parsed argument else .inputWrapped argument
  else .expressionWrapped argument

/-- `ToolCallRecord` (context.rs): immutable audit record of one tool
invocation.  `timestamp` is the external clock reading at invocation. -/
structure ToolCallRecord where
  tool_name : Str
  input : ToolInput
  output : Option Str
  success : Bool
  execution_time_ms : Nat
  timestamp : Nat
deriving DecidableEq

/-- `StopReason` (context.rs): tagged terminal classification of a run. -/
inductive StopReason
  | completed
  | maxIterations
  | timeout
  | error (msg : Str)
  | userStop
deriving DecidableEq

/-- `ExecutionResult` (context.rs): the immutable terminal record of a run. -/
structure ExecutionResult where
  id : Str
  response : Str
  success : Bool
  iterations : Nat
  tool_calls : List ToolCallRecord
  total_tokens : Nat
  total_cost : Int
  execution_time_ms : Nat
  stop_reason : StopReason
  thoughts : List Str
deriving DecidableEq

/-- `ExecutionResult::success`: stop reason `Completed`, success flag set. -/
def ExecutionResult.mkSuccess (id response : Str) (iterations : Nat)
    (tool_calls : List ToolCallRecord) (total_tokens : Nat) (total_cost : Int)
    (execution_time_ms : Nat) (thoughts : List Str) : ExecutionResult :=
  { id := id, response := response, success := true, iterations := iterations,
    tool_calls := tool_calls, total_tokens := total_tokens,
    total_cost := total_cost, execution_time_ms := execution_time_ms,
    stop_reason := .completed, thoughts := thoughts }

/-- `ExecutionResult::failure`: empty response, success flag cleared, and the
stop reason is always `StopReason::Error` carrying the error display. -/
def ExecutionResult.mkFailure (id error : Str) (iterations : Nat)
    (tool_calls : List ToolCallRecord) (total_tokens : Nat) (total_cost : Int)
    (execution_time_ms : Nat) (thoughts : List Str) : ExecutionResult :=
  { id := id, response := [], success := false, iterations := iterations,
    tool_calls := tool_calls, total_tokens := total_tokens,
    total_cost := total_cost, execution_time_ms := execution_time_ms,
    stop_reason := .error error, thoughts := thoughts }

/-- `RuntimeError` (error.rs), restricted to the variants the executor and the
ReAct loop can produce.  `llmError` and `toolError` carry the display of the
wrapped source error. -/
inductive RuntimeError
  | llmError (msg : Str)
  | toolError (msg : Str)
  | configError (msg : Str)
  | timeout (secs : Nat)
  | maxIterationsReached (n : Nat)
  | toolNotFound (name : Str)
  | invalidToolCall (msg : Str)
deriving DecidableEq

/-- The `thiserror` display of each `RuntimeError` variant, as consumed by
`e.to_string()` at the executor boundary. -/
def RuntimeError.toMessage : RuntimeError → Str
  | .llmError m => "LLM error: ".data ++ m
  | .toolError m => "Tool error: ".data ++ m
  | .configError m => "Configuration error: ".data ++ m
  | .timeout secs => "Execution timeout after ".data ++ (toString secs).data ++ "s".data
  | .maxIterationsReached n => "Max iterations reached: ".data ++ (toString n).data
  | .toolNotFound name => "Tool not found: ".data ++ name
  | .invalidToolCall m => "Invalid tool call: ".data ++ m

/-- `ExecutionContext` (context.rs): the run-scoped mutable state.  The `uuid`
id is supplied by the caller, `started_at` is externalized into the clock
readings of the environment, and the unused `metadata` map is omitted.
`timeout` is in whole seconds (the executor builds it with
`Duration::from_secs`), and elapsed-time readings are compared in whole
seconds, which preserves `elapsed >= timeout` exactly for whole-second
timeouts. -/
structure ExecutionContext where
  id : Str
  messages : List Message
  iteration : Nat
  max_iterations : Nat
  timeout : Nat
  total_tokens : TokenUsage
  total_cost : Int
  tool_calls : List ToolCallRecord
  thoughts : List Str
deriving DecidableEq

/-- `ExecutionContext::new`: zeroed counters and empty trails. -/
def ExecutionContext.new (id : Str) (max_iterations timeout : Nat) :
    ExecutionContext :=
  { id := id, messages := [], iteration := 0, max_iterations := max_iterations,
    timeout := timeout, total_tokens := ⟨0, 0⟩, total_cost := 0,
    tool_calls := [], thoughts := [] }

/-- `ExecutionContext::add_message`: append to the transcript. -/
@[simp] def ExecutionContext.add_message (ctx : ExecutionContext) (m : Message) :
    ExecutionContext :=
  { ctx with messages := ctx.messages ++ [m] }

/-- `ExecutionContext::increment_iteration`.  The counter is `u32`, but the
loop only increments while `iteration < max_iterations < 2 ^ 32`, so the
machine increment never wraps and `Nat` addition is exact. -/
@[simp] def ExecutionContext.increment_iteration (ctx : ExecutionContext) :
    ExecutionContext :=
  { ctx with iteration := ctx.iteration + 1 }

/-- `ExecutionContext::is_max_iterations_reached`: `iteration >= max_iterations`. -/
@[simp] def ExecutionContext.is_max_iterations_reached (ctx : ExecutionContext) :
    Bool :=
  decide (ctx.max_iterations ≤ ctx.iteration)

/-- `ExecutionContext::is_timed_out`: the elapsed reading has reached the
timeout.  The monotonic reading is passed in by the caller. -/
@[simp] def ExecutionContext.is_timed_out (ctx : ExecutionContext)
    (elapsedNow : Nat) : Bool :=
  decide (ctx.timeout ≤ elapsedNow)

/-- `ExecutionContext::add_tokens`: the `u32` accumulators wrap at `2 ^ 32`
(release-mode Rust `+=`; a debug build would panic at the same point). -/
@[simp] def ExecutionContext.add_tokens (ctx : ExecutionContext)
    (usage : TokenUsage) : ExecutionContext :=
  { ctx with total_tokens :=
      ⟨(ctx.total_tokens.input_tokens + usage.input_tokens) % 2 ^ 32,
       (ctx.total_tokens.output_tokens + usage.output_tokens) % 2 ^ 32⟩ }

/-- `ExecutionContext::add_cost`: best-effort accumulation.  The `f64`
estimates are abstracted to exact integer-valued quantities: no claim under
check constrains the cost arithmetic itself, only that the accumulator is
threaded through to the result. -/
@[simp] def ExecutionContext.add_cost (ctx : ExecutionContext) (cost : Int) :
    ExecutionContext :=
  { ctx with total_cost := ctx.total_cost + cost }

/-- `ExecutionContext::record_tool_call`: append to the audit trail. -/
@[simp] def ExecutionContext.record_tool_call (ctx : ExecutionContext)
    (r : ToolCallRecord) : ExecutionContext :=
  { ctx with tool_calls := ctx.tool_calls ++ [r] }

/-- `ExecutionContext::record_thought`: append to the reasoning trail. -/
@[simp] def ExecutionContext.record_thought (ctx : ExecutionContext)
    (t : Str) : ExecutionContext :=
  { ctx with thoughts := ctx.thoughts ++ [t] }

/-- The method `ExecutionContext::total_tokens()`: `u32` sum of the two
accumulators (wrapping at `2 ^ 32`, like the source's machine addition). -/
def ExecutionContext.totalTokens (ctx : ExecutionContext) : Nat :=
  (ctx.total_tokens.input_tokens + ctx.total_tokens.output_tokens) % 2 ^ 32

/-- External collaborators of one run, indexed by the iteration number `k` at
which they are consulted (one LLM call, at most one tool call and one clock
reading per iteration): the monotonic elapsed clock in whole seconds, the LLM
client (`generate` plus `estimate_cost`), the `serde_json` parse oracle, the
tool registry membership map, tool execution, and the tool-call latency and
timestamp readings. -/
structure Env where
  elapsed : Nat → Nat
  gen : Nat → Except Str LLMResponse
  cost : Nat → Option Int
  jsonParses : Str → Bool
  tools : Str → Bool
  toolExec : Nat → ToolInput → Except Str ToolResult
  toolTime : Nat → Nat
  toolStamp : Nat → Nat

/-- Terminal outcome of the strategy: `Ok(answer)`, `Err(e)`, or a Rust
panic escaping from `extract_tool_call`. -/
inductive Outcome
  | answer (s : Str)
  | failure (e : RuntimeError)
  | panicked
deriving DecidableEq

/-- Result of one pass through the ReAct loop body: continue looping with the
updated context, or halt with an outcome. -/
inductive StepResult
  | next (ctx : ExecutionContext)
  | halt (o : Outcome) (ctx : ExecutionContext)
deriving DecidableEq

/-- The observation message fed back after a tool call:
`format!("Tool Result from {}: {}", tool_name, content)`. -/
def observationMsg (tool_name content : Str) : Str :=
  "Tool Result from ".data ++ tool_name ++ ": ".data ++ content

/-- The message of the `InvalidToolCall` terminal branch. -/
def invalidToolCallMsg : Str :=
  "Response contained neither tool call nor final answer".data

/-- One pass through the body of `ReActStrategy::execute`'s loop
(react.rs lines 98–231, identical in namra-runtime and nexus-runtime up to
tracing side effects): guard on the iteration bound, then on the timeout;
increment the iteration; call the LLM; accumulate tokens and estimated cost;
record the thought and the assistant message; then act on the classified
output — dispatch an extracted tool call (unknown name halts with
`ToolNotFound`, a tool-level `Err` halts with `ToolError`, otherwise the
record and observation are appended and the loop continues), complete on a
final answer, or halt with `InvalidToolCall`. -/
def react_round (env : Env) (ctx : ExecutionContext) : StepResult :=
  if ctx.is_max_iterations_reached then
    .halt (.failure (.maxIterationsReached ctx.max_iterations)) ctx
  else if ctx.is_timed_out (env.elapsed ctx.iteration) then
    .halt (.failure (.timeout ctx.timeout)) ctx
  else
    let k := ctx.iteration
    let ctx := ctx.increment_iteration
    match env.gen k with
    | .error msg => .halt (.failure (.llmError msg)) ctx
    | .ok response =>
      let ctx := ctx.add_tokens response.usage
      let ctx := ctx.add_cost ((env.cost k).getD 0)
      let ctx := ctx.record_thought response.content
      let ctx := ctx.add_message ⟨.assistant, response.content⟩
      match classify response.content with
      | .panicked => .halt .panicked ctx
      | .toolCall tool_name argument =>
        if env.tools tool_name then
          let tool_input := make_tool_input env.jsonParses argument
          match env.toolExec k tool_input with
          | .error msg => .halt (.failure (.toolError msg)) ctx
          | .ok tool_result =>
            let ctx := ctx.record_tool_call
              ⟨tool_name, tool_input, some tool_result.content,
               tool_result.success, env.toolTime k, env.toolStamp k⟩
            let ctx := ctx.add_message
              ⟨.user, observationMsg tool_name tool_result.content⟩
            .next ctx
        else .halt (.failure (.toolNotFound tool_name)) ctx
      | .finalAnswer answer => .halt (.answer answer) ctx
      | .invalid => .halt (.failure (.invalidToolCall invalidToolCallMsg)) ctx

/-- The full ReAct loop: iterate `react_round` until it halts.  Termination:
every continuing pass increments `iteration` while leaving `max_iterations`
unchanged, and only runs when `iteration < max_iterations`. -/
def reactLoop (env : Env) (ctx : ExecutionContext) :
    Outcome × ExecutionContext :=
  match h : react_round env ctx with
  | .next ctx' => reactLoop env ctx'
  | .halt o ctx' => (o, ctx')
termination_by ctx.max_iterations - ctx.iteration
decreasing_by
  unfold react_round at h
  dsimp only at h
  repeat' split at h
  any_goals exact StepResult.noConfusion h
  cases h
  simp_all
  omega

/-- Fuel-indexed evaluator for the ReAct loop, used to compute `reactLoop` on
concrete inputs: with fuel at least `max_iterations - iteration` it agrees
with `reactLoop` (the exhausted-fuel branch is then unreachable, see
`reactLoop_eq_loopFuel`). -/
def loopFuel (env : Env) : Nat → ExecutionContext → Outcome × ExecutionContext
  | 0, ctx =>
    match react_round env ctx with
    | .halt o ctx' => (o, ctx')
    | .next ctx' => (.panicked, ctx')
  | fuel + 1, ctx =>
    match react_round env ctx with
    | .halt o ctx' => (o, ctx')
    | .next ctx' => loopFuel env fuel ctx'

/-- `AgentExecutor::parse_timeout` of namra-runtime (executor.rs lines
123–143): the `"ms"` suffix is checked before `'s'`, then `'s'`, else the
whole string is parsed as seconds; `"ms"` values are converted with integer
division by 1000. -/
def parse_timeout (timeout_str : Str) : Except RuntimeError Nat :=
  let t := trim timeout_str
  match stripSuffix "ms".data t with
  | some stripped =>
    match parse_u64 stripped with
    | .ok ms => .ok (ms / 1000)
    | .error e => .error (.configError ("Invalid timeout format: ".data ++ e))
  | none =>
    match stripSuffix "s".data t with
    | some stripped =>
      match parse_u64 stripped with
      | .ok secs => .ok secs
      | .error e => .error (.configError ("Invalid timeout format: ".data ++ e))
    | none =>
      match parse_u64 t with
      | .ok secs => .ok secs
      | .error e => .error (.configError ("Invalid timeout format: ".data ++ e))

/-- `AgentExecutor::parse_timeout` of nexus-runtime (executor.rs lines
105–124): the `'s'` suffix is tested first, so any string ending in `"ms"`
takes the `'s'` branch and the dedicated `"ms"` branch is unreachable. -/
def parse_timeout_nexus (timeout_str : Str) : Except RuntimeError Nat :=
  let t := trim timeout_str
  if endsWithB "s".data t then
    match parse_u64 (t.take (t.length - 1)) with
    | .ok secs => .ok secs
    | .error e => .error (.configError ("Invalid timeout format: ".data ++ e))
  else if endsWithB "ms".data t then
    match parse_u64 (t.take (t.length - 2)) with
    | .ok ms => .ok (ms / 1000)
    | .error e => .error (.configError ("Invalid timeout format: ".data ++ e))
  else
    match parse_u64 t with
    | .ok secs => .ok secs
    | .error e => .error (.configError ("Invalid timeout format: ".data ++ e))

/-- The context built by `AgentExecutor::execute` before delegating to the
strategy: a fresh context, a system message when the configured prompt is
non-empty, then the user input. -/
def initial_context (id : Str) (max_iterations timeout : Nat)
    (system_prompt input : Str) : ExecutionContext :=
  let ctx := ExecutionContext.new id max_iterations timeout
  let ctx := if system_prompt = [] then ctx
    else ctx.add_message ⟨.system, system_prompt⟩
  ctx.add_message ⟨.user, input⟩

/-- Result of `AgentExecutor::execute`: `Ok(ExecutionResult)`, a propagated
`Err` (only possible from `parse_timeout`, before the run starts), or an
escaped panic. -/
inductive ExecOutcome
  | ok (r : ExecutionResult)
  | err (e : RuntimeError)
  | panicked
deriving DecidableEq

/-- The executor's outcome conversion (executor.rs lines 74–101): a strategy
`Ok` becomes `ExecutionResult::success`, a strategy `Err` becomes
`ExecutionResult::failure` with the error display, and either way the
iteration count, tool calls, token total, cost and thoughts accumulated in
the context are carried over.  `execution_time_ms` is the final elapsed
reading. -/
def finish (o : Outcome) (ctx : ExecutionContext) (execution_time_ms : Nat) :
    ExecOutcome :=
  match o with
  | .answer response =>
    .ok (ExecutionResult.mkSuccess ctx.id response ctx.iteration ctx.tool_calls
      ctx.totalTokens ctx.total_cost execution_time_ms ctx.thoughts)
  | .failure e =>
    .ok (ExecutionResult.mkFailure ctx.id e.toMessage ctx.iteration
      ctx.tool_calls ctx.totalTokens ctx.total_cost execution_time_ms
      ctx.thoughts)
  | .panicked => .panicked

/-- `AgentExecutor::execute` (identical orchestration in namra-runtime and
nexus-runtime; namra's `parse_timeout` is used): parse the configured timeout
string, build the initial context, run the ReAct strategy, and convert the
outcome.  `final_elapsed_ms` is the elapsed reading taken when building the
result. -/
def AgentExecutor.execute (timeout_str : Str) (max_iterations : Nat)
    (system_prompt : Str) (id input : Str) (env : Env)
    (final_elapsed_ms : Nat) : ExecOutcome :=
  match parse_timeout timeout_str with
  | .error e => .err e
  | .ok timeout_secs =>
    let ctx := initial_context id max_iterations timeout_secs system_prompt input
    let result := reactLoop env ctx
    finish result.1 result.2 final_elapsed_ms

/-- An environment whose model proposes the registered tool call
`TOOL: echo(hi)` on every turn, with a clock that never advances. -/
def maxIterEnv : Env where
  elapsed := fun _ => 0
  gen := fun _ => .ok ⟨"TOOL: echo(hi)".data, ⟨3, 4⟩⟩
  cost := fun _ => some 0
  jsonParses := fun _ => false
  tools := fun n => decide (n = "echo".data)
  toolExec := fun _ _ => .ok ⟨"hi".data, true⟩
  toolTime := fun _ => 1
  toolStamp := fun _ => 0

/-- The result computed for a `max_iterations = 1` run against `maxIterEnv`:
one LLM call, one tool call, then the iteration guard fires and the error is
stored as `StopReason::Error` text. -/
def maxIterationsRunResult : ExecutionResult where
  id := "run1".data
  response := []
  success := false
  iterations := 1
  tool_calls := [⟨"echo".data, .expressionWrapped "hi".data, some "hi".data,
    true, 1, 0⟩]
  total_tokens := 7
  total_cost := 0
  execution_time_ms := 10
  stop_reason := .error "Max iterations reached: 1".data
  thoughts := ["TOOL: echo(hi)".data]

/-- An environment whose clock already reads 7 seconds at the first guard
check, against a 5-second timeout. -/
def timeoutEnv : Env where
  elapsed := fun _ => 7
  gen := fun _ => .ok ⟨"ANSWER: 42".data, ⟨1, 1⟩⟩
  cost := fun _ => some 0
  jsonParses := fun _ => false
  tools := fun _ => false
  toolExec := fun _ _ => .ok ⟨[], true⟩
  toolTime := fun _ => 0
  toolStamp := fun _ => 0

/-- The result computed for a run against `timeoutEnv` with timeout `"5s"`:
the timeout guard fires before any LLM call and the error is stored as
`StopReason::Error` text. -/
def timeoutRunResult : ExecutionResult where
  id := "run2".data
  response := []
  success := false
  iterations := 0
  tool_calls := []
  total_tokens := 0
  total_cost := 0
  execution_time_ms := 9000
  stop_reason := .error "Execution timeout after 5s".data
  thoughts := []

/-- An environment whose model reply contains `"TOOL:"` but no parenthesized
call and no `"ANSWER:"` marker. -/
def invalidEnv : Env where
  elapsed := fun _ => 0
  gen := fun _ => .ok ⟨"TOOL: x".data, ⟨2, 2⟩⟩
  cost := fun _ => some 0
  jsonParses := fun _ => false
  tools := fun _ => true
  toolExec := fun _ _ => .ok ⟨[], true⟩
  toolTime := fun _ => 0
  toolStamp := fun _ => 0

/-- The result computed for a run against `invalidEnv`: the reply reaches the
`InvalidToolCall` terminal branch on the first iteration. -/
def invalidRunResult : ExecutionResult where
  id := "run3".data
  response := []
  success := false
  iterations := 1
  tool_calls := []
  total_tokens := 4
  total_cost := 0
  execution_time_ms := 5
  stop_reason := .error ("Invalid tool call: ".data ++ invalidToolCallMsg)
  thoughts := ["TOOL: x".data]

/-- An environment whose model reply carries both a tool marker and a
final-answer marker, with the named tool registered. -/
def bothMarkersEnv : Env where
  elapsed := fun _ => 0
  gen := fun _ => .ok ⟨"TOOL: echo(hi) ANSWER: done".data, ⟨1, 1⟩⟩
  cost := fun _ => some 0
  jsonParses := fun _ => false
  tools := fun n => decide (n = "echo".data)
  toolExec := fun _ _ => .ok ⟨"hi".data, true⟩
  toolTime := fun _ => 2
  toolStamp := fun _ => 3

/-- An environment whose model reply names the unregistered tool `foo`. -/
def unknownToolEnv : Env where
  elapsed := fun _ => 0
  gen := fun _ => .ok ⟨"TOOL: foo(1)".data, ⟨1, 1⟩⟩
  cost := fun _ => some 0
  jsonParses := fun _ => false
  tools := fun _ => false
  toolExec := fun _ _ => .ok ⟨[], true⟩
  toolTime := fun _ => 0
  toolStamp := fun _ => 0

/-- A fresh context with room for five iterations and a 60-second timeout,
used to instantiate the general theorems. -/
def sampleContext : ExecutionContext :=
  ExecutionContext.new "w".data 5 60

/-- The reversed-slice condition of `extract_tool_call`: the trimmed text
after the first `"TOOL:"` contains both parentheses and its first `')'`
strictly precedes its first `'('`, making the Rust argument slice
`tool_part[paren_pos + 1..end_paren]` panic. -/
def reversedParens (response : Str) : Bool :=
  match findSub toolMarker response with
  | some tool_start =>
    let tool_part := trim (response.drop (tool_start + 5))
    match findChar '(' tool_part, findChar ')' tool_part with
    | some paren_pos, some end_paren => decide (end_paren < paren_pos + 1)
    | _, _ => false
  | none => false

/-- A continuing pass of the loop body increments the iteration counter,
preserves the iteration bound, and only arises below the bound. -/
theorem react_round_next_measure (env : Env) (ctx ctx' : ExecutionContext)
    (h : react_round env ctx = .next ctx') :
    ctx'.max_iterations = ctx.max_iterations ∧
      ctx'.iteration = ctx.iteration + 1 ∧
      ctx.iteration < ctx.max_iterations := by
  unfold react_round at h
  dsimp only at h
  repeat' split at h
  any_goals exact StepResult.noConfusion h
  cases h
  simp_all

/-- A halting pass of the loop body determines the value of `reactLoop`. -/
theorem reactLoop_halt (env : Env) (o : Outcome) (ctx ctx' : ExecutionContext)
    (h : react_round env ctx = .halt o ctx') :
    reactLoop env ctx = (o, ctx') := by
  unfold reactLoop
  split <;> rename_i heq <;> rw [h] at heq
  · exact StepResult.noConfusion heq
  · injection heq with h1 h2
    rw [h1, h2]

/-- A continuing pass of the loop body unfolds `reactLoop` by one round. -/
theorem reactLoop_next (env : Env) (ctx ctx' : ExecutionContext)
    (h : react_round env ctx = .next ctx') :
    reactLoop env ctx = reactLoop env ctx' := by
  conv_lhs => rw [reactLoop]
  split <;> rename_i heq <;> rw [h] at heq
  · injection heq with h1
    rw [h1]
  · exact StepResult.noConfusion heq

/-- With fuel at least the remaining iteration budget, the fuel-indexed
evaluator computes `reactLoop`. -/
theorem reactLoop_eq_loopFuel (env : Env) (fuel : Nat) :
    ∀ ctx : ExecutionContext, ctx.max_iterations - ctx.iteration ≤ fuel →
      reactLoop env ctx = loopFuel env fuel ctx := by
  induction fuel with
  | zero =>
    intro ctx h
    have hmax : react_round env ctx =
        .halt (.failure (.maxIterationsReached ctx.max_iterations)) ctx := by
      unfold react_round
      have : ctx.max_iterations ≤ ctx.iteration := by omega
      simp [this]
    rw [reactLoop_halt env _ ctx ctx hmax]
    simp [loopFuel, hmax]
  | succ fuel ih =>
    intro ctx h
    cases hr : react_round env ctx with
    | next ctx' =>
      obtain ⟨hm, hi, hlt⟩ := react_round_next_measure env ctx ctx' hr
      rw [reactLoop_next env ctx ctx' hr]
      rw [loopFuel, hr]
      exact ih ctx' (by omega)
    | halt o ctx' =>
      rw [reactLoop_halt env o ctx ctx' hr]
      simp [loopFuel, hr]

/-- With a successfully parsed timeout, `AgentExecutor::execute` is computed
by the fuel-indexed evaluator started with the full iteration budget. -/
theorem execute_eval (ts : Str) (mi : Nat) (sp id input : Str) (env : Env)
    (te t : Nat) (hp : parse_timeout ts = .ok t) :
    AgentExecutor.execute ts mi sp id input env te =
      finish (loopFuel env mi (initial_context id mi t sp input)).1
        (loopFuel env mi (initial_context id mi t sp input)).2 te := by
  unfold AgentExecutor.execute
  rw [hp]
  have hmeasure : (initial_context id mi t sp input).max_iterations -
      (initial_context id mi t sp input).iteration ≤ mi := by
    unfold initial_context
    split <;> simp [ExecutionContext.new]
  show finish (reactLoop env (initial_context id mi t sp input)).1
      (reactLoop env (initial_context id mi t sp input)).2 te = _
  rw [reactLoop_eq_loopFuel env mi _ hmeasure]

/-- C1: the claim asserts that a `max_iterations = N` run against a model
that always proposes a registered tool call makes exactly `N` LLM calls and
ends with `stop_reason = StopReason::MaxIterations`.  At the failing input
`N = 1` with model reply `TOOL: echo(hi)` and registered tool `echo`, the run
does make exactly one LLM call (one thought, one tool call, `iterations = 1`)
and terminates, but `ExecutionResult::failure` stores
`StopReason::Error("Max iterations reached: 1")`, not
`StopReason::MaxIterations` — the code funnels every `RuntimeError` through
the `Error` variant, contradicting the repository's own storage and CLI
layers, which expect the dedicated variant. -/
theorem maxIterations_run_yields_error_stop_reason :
    AgentExecutor.execute "60s".data 1 [] "run1".data "go".data maxIterEnv 10 =
      .ok maxIterationsRunResult ∧
    maxIterationsRunResult.iterations = 1 ∧
    maxIterationsRunResult.thoughts.length = 1 ∧
    maxIterationsRunResult.success = false ∧
    maxIterationsRunResult.stop_reason =
      .error "Max iterations reached: 1".data ∧
    maxIterationsRunResult.stop_reason ≠ .maxIterations := by
  refine ⟨?_, by decide, by decide, by decide, by decide, by decide⟩
  rw [execute_eval "60s".data 1 [] "run1".data "go".data maxIterEnv 10 60
    (by decide)]
  decide

/-- C4: the claim asserts that a run whose elapsed time has reached the
timeout stops at the next iteration boundary with
`stop_reason = StopReason::Timeout`.  At the failing input (timeout `"5s"`,
clock already at 7 seconds, `max_iterations = 3`) the run does stop at the
boundary before any LLM call (`iterations = 0`, no thoughts), but
`ExecutionResult::failure` stores
`StopReason::Error("Execution timeout after 5s")`, not
`StopReason::Timeout`. -/
theorem timeout_run_yields_error_stop_reason :
    AgentExecutor.execute "5s".data 3 [] "run2".data "go".data timeoutEnv
      9000 = .ok timeoutRunResult ∧
    timeoutRunResult.iterations = 0 ∧
    timeoutRunResult.thoughts = [] ∧
    timeoutRunResult.success = false ∧
    timeoutRunResult.stop_reason =
      .error "Execution timeout after 5s".data ∧
    timeoutRunResult.stop_reason ≠ .timeout := by
  refine ⟨?_, by decide, by decide, by decide, by decide, by decide⟩
  rw [execute_eval "5s".data 3 [] "run2".data "go".data timeoutEnv 9000 5
    (by decide)]
  decide

/-- C9: the claim asserts the namra and nexus `parse_timeout` functions are
extensionally equal and in particular both succeed on digit strings followed
by `"ms"`.  At `"100ms"` the namra parser (which strips `"ms"` first) returns
`Ok(0)`, while the nexus parser tests the `'s'` suffix first, tries to parse
`"100m"`, and fails with a `ConfigError`; its dedicated `"ms"` branch is
unreachable dead code, which the namra version's comment explicitly fixes. -/
theorem parse_timeout_divergence_on_ms :
    parse_timeout "100ms".data = .ok 0 ∧
    parse_timeout_nexus "100ms".data =
      .error (.configError ("Invalid timeout format: ".data ++
        "invalid digit found in string".data)) ∧
    parse_timeout "100ms".data ≠ parse_timeout_nexus "100ms".data := by
  refine ⟨by decide, by decide, by decide⟩

/-- C3 counterexample: the claim asserts the `InvalidToolCall` terminal
branch is unreachable — every output either dispatches a tool call or
completes as a final answer.  The model output `"TOOL: x"` refutes it: it
contains `"TOOL:"` (so `is_final_answer` is false) but has no parenthesized
call (so extraction yields `None`), and the run terminates through the
`InvalidToolCall` branch on its first iteration. -/
theorem invalid_tool_call_branch_reachable :
    AgentExecutor.execute "60s".data 3 [] "run3".data "go".data invalidEnv
      5 = .ok invalidRunResult ∧
    invalidRunResult.stop_reason =
      .error ("Invalid tool call: ".data ++ invalidToolCallMsg) := by
  refine ⟨?_, by decide⟩
  rw [execute_eval "60s".data 3 [] "run3".data "go".data invalidEnv 5 60
    (by decide)]
  decide

/-- C3 amended: the `InvalidToolCall` branch is reachable; it is taken for
exactly those model outputs from which no tool call is extracted (without
panicking) yet which contain the `"TOOL:"` marker and do not contain the
`"ANSWER:"` marker.  Every other non-panicking output either dispatches a
tool call or completes as a final answer. -/
theorem invalid_tool_call_branch_characterization (r : Str) :
    classify r = .invalid ↔
      (ReActStrategy.extract_tool_call r = .ok none ∧
       containsSub toolMarker r = true ∧
       containsSub answerMarker r = false) := by
  unfold classify ReActStrategy.is_final_answer
  cases hx : ReActStrategy.extract_tool_call r with
  | error e => simp
  | ok o =>
    cases o with
    | none =>
      split <;> rename_i hb <;> simp_all [and_comm]
    | some p =>
      obtain ⟨n, a⟩ := p
      simp

/-- C7: for every extracted argument, the tool-input construction is a total
function that never errors: an argument starting with an object-opening brace
is handed to the JSON parser and falls back to the single free-form `input`
field when parsing fails, and any other argument is wrapped as the free-form
`expression` field. -/
theorem argument_wrapping_never_fatal (p : Str → Bool) (a : Str) :
    (a.head? = some '\x7b' → p a = true → make_tool_input p a = .parsed a) ∧
    (a.head? = some '\x7b' → p a = false →
      make_tool_input p a = .inputWrapped a) ∧
    (a.head? ≠ some '\x7b' → make_tool_input p a = .expressionWrapped a) := by
  unfold make_tool_input
  refine ⟨fun h1 h2 => ?_, fun h1 h2 => ?_, fun h1 => ?_⟩
  · simp [h1, h2]
  · simp [h1, h2]
  · simp [h1]

/-- C7 witness: the malformed brace-prefixed argument is silently wrapped as
the free-form `input` field. -/
theorem argument_wrapping_never_fatal_witness :
    make_tool_input (fun _ => false) "\x7bbad".data =
      .inputWrapped "\x7bbad".data :=
  (argument_wrapping_never_fatal (fun _ => false) "\x7bbad".data).2.1
    (by decide) (by decide)

/-- C2: for every strategy outcome (a final answer, or any of the run-ending
errors), the executor's outcome conversion returns `Ok` with exactly one
`ExecutionResult` that carries the iteration count, tool-call records, token
total, cost and thoughts accumulated in the context; on a failure the result
has `success = false` and a stop reason holding the error message.  The
executor never raises past this boundary. -/
theorem executor_wraps_every_outcome (o : Outcome) (ctx : ExecutionContext)
    (te : Nat) (h : o ≠ .panicked) :
    ∃ r : ExecutionResult, finish o ctx te = .ok r ∧
      r.id = ctx.id ∧ r.iterations = ctx.iteration ∧
      r.tool_calls = ctx.tool_calls ∧ r.total_tokens = ctx.totalTokens ∧
      r.total_cost = ctx.total_cost ∧ r.execution_time_ms = te ∧
      r.thoughts = ctx.thoughts ∧
      (∀ e, o = .failure e →
        r.success = false ∧ r.stop_reason = .error e.toMessage) ∧
      (∀ s, o = .answer s →
        r.success = true ∧ r.response = s ∧ r.stop_reason = .completed) := by
  cases o with
  | answer s =>
    exact ⟨_, rfl, rfl, rfl, rfl, rfl, rfl, rfl, rfl,
      fun e he => Outcome.noConfusion he,
      fun s' hs => by cases hs; exact ⟨rfl, rfl, rfl⟩⟩
  | failure e =>
    exact ⟨_, rfl, rfl, rfl, rfl, rfl, rfl, rfl, rfl,
      fun e' he => by cases he; exact ⟨rfl, rfl⟩,
      fun s hs => Outcome.noConfusion hs⟩
  | panicked => exact absurd rfl h

/-- C2 witness: the conversion applied to a `ToolNotFound` failure in a fresh
context. -/
theorem executor_wraps_every_outcome_witness :
    Outcome.failure (.toolNotFound "foo".data) ≠ Outcome.panicked ∧
    (∃ r : ExecutionResult,
      finish (.failure (.toolNotFound "foo".data)) sampleContext 3 = .ok r ∧
      r.id = sampleContext.id ∧ r.iterations = sampleContext.iteration ∧
      r.tool_calls = sampleContext.tool_calls ∧
      r.total_tokens = sampleContext.totalTokens ∧
      r.total_cost = sampleContext.total_cost ∧ r.execution_time_ms = 3 ∧
      r.thoughts = sampleContext.thoughts ∧
      (∀ e, Outcome.failure (.toolNotFound "foo".data) = .failure e →
        r.success = false ∧ r.stop_reason = .error e.toMessage) ∧
      (∀ s, Outcome.failure (.toolNotFound "foo".data) = .answer s →
        r.success = true ∧ r.response = s ∧ r.stop_reason = .completed)) :=
  ⟨by decide,
   executor_wraps_every_outcome (.failure (.toolNotFound "foo".data))
     sampleContext 3 (by decide)⟩

/-- C5: when a model output yields an extracted tool call and also contains
the final-answer marker, the tool marker wins for that iteration: with the
named tool registered and its execution returning a result, the loop body
appends the corresponding `ToolCallRecord` and continues — the run does not
terminate with `Completed` on that iteration. -/
theorem tool_marker_precedes_final_answer
    (env : Env) (ctx : ExecutionContext) (resp : LLMResponse)
    (n a : Str) (tr : ToolResult)
    (hmax : ctx.iteration < ctx.max_iterations)
    (htime : env.elapsed ctx.iteration < ctx.timeout)
    (hgen : env.gen ctx.iteration = .ok resp)
    (hext : ReActStrategy.extract_tool_call resp.content = .ok (some (n, a)))
    (hans : containsSub answerMarker resp.content = true)
    (hreg : env.tools n = true)
    (hexec : env.toolExec ctx.iteration (make_tool_input env.jsonParses a) =
      .ok tr) :
    ∃ ctx', react_round env ctx = .next ctx' ∧
      ctx'.tool_calls = ctx.tool_calls ++
        [⟨n, make_tool_input env.jsonParses a, some tr.content, tr.success,
          env.toolTime ctx.iteration, env.toolStamp ctx.iteration⟩] := by
  have g1 : ctx.is_max_iterations_reached = false := by
    simp only [ExecutionContext.is_max_iterations_reached,
      decide_eq_false_iff_not]
    omega
  have g2 : ctx.is_timed_out (env.elapsed ctx.iteration) = false := by
    simp only [ExecutionContext.is_timed_out, decide_eq_false_iff_not]
    omega
  have hc : classify resp.content = .toolCall n a := by
    unfold classify
    rw [hext]
  have hround : react_round env ctx = .next
      ((((((ctx.increment_iteration.add_tokens resp.usage).add_cost
        ((env.cost ctx.iteration).getD 0)).record_thought
        resp.content).add_message ⟨.assistant, resp.content⟩).record_tool_call
        ⟨n, make_tool_input env.jsonParses a, some tr.content, tr.success,
          env.toolTime ctx.iteration, env.toolStamp ctx.iteration⟩).add_message
        ⟨.user, observationMsg n tr.content⟩) := by
    simp only [react_round, g1, g2, hgen, hc, hreg, hexec,
      Bool.false_eq_true, if_false, if_true]
  exact ⟨_, hround, by simp⟩

/-- C5 witness: the output `TOOL: echo(hi) ANSWER: done` dispatches the
registered tool `echo` instead of completing. -/
theorem tool_marker_precedes_final_answer_witness :
    ∃ ctx', react_round bothMarkersEnv sampleContext = .next ctx' ∧
      ctx'.tool_calls = sampleContext.tool_calls ++
        [⟨"echo".data, .expressionWrapped "hi".data, some "hi".data, true,
          2, 3⟩] :=
  tool_marker_precedes_final_answer bothMarkersEnv sampleContext
    ⟨"TOOL: echo(hi) ANSWER: done".data, ⟨1, 1⟩⟩ "echo".data "hi".data
    ⟨"hi".data, true⟩ (by decide) (by decide) (by decide) (by decide)
    (by decide) (by decide) (by decide)

/-- C6: when the extracted tool name is absent from the registry, the run
ends as a failure whose stop reason is of the `StopReason::Error` kind
(carrying the `Tool not found` message), no `ToolCallRecord` is appended, and
the thought recorded for that model turn remains in the result's thought
trail.  The tool is never executed: the loop halts before consulting the
tool, as witnessed by the unchanged audit trail. -/
theorem unknown_tool_ends_run_without_record
    (env : Env) (ctx : ExecutionContext) (resp : LLMResponse)
    (n a : Str) (te : Nat)
    (hmax : ctx.iteration < ctx.max_iterations)
    (htime : env.elapsed ctx.iteration < ctx.timeout)
    (hgen : env.gen ctx.iteration = .ok resp)
    (hext : ReActStrategy.extract_tool_call resp.content = .ok (some (n, a)))
    (hreg : env.tools n = false) :
    ∃ ctxF r, reactLoop env ctx = (.failure (.toolNotFound n), ctxF) ∧
      ctxF.tool_calls = ctx.tool_calls ∧
      ctxF.thoughts = ctx.thoughts ++ [resp.content] ∧
      finish (.failure (.toolNotFound n)) ctxF te = .ok r ∧
      r.success = false ∧
      r.stop_reason = .error ("Tool not found: ".data ++ n) ∧
      r.tool_calls = ctx.tool_calls ∧
      r.thoughts = ctx.thoughts ++ [resp.content] := by
  have g1 : ctx.is_max_iterations_reached = false := by
    simp only [ExecutionContext.is_max_iterations_reached,
      decide_eq_false_iff_not]
    omega
  have g2 : ctx.is_timed_out (env.elapsed ctx.iteration) = false := by
    simp only [ExecutionContext.is_timed_out, decide_eq_false_iff_not]
    omega
  have hc : classify resp.content = .toolCall n a := by
    unfold classify
    rw [hext]
  have hround : react_round env ctx = .halt (.failure (.toolNotFound n))
      ((((ctx.increment_iteration.add_tokens resp.usage).add_cost
        ((env.cost ctx.iteration).getD 0)).record_thought
        resp.content).add_message ⟨.assistant, resp.content⟩) := by
    simp only [react_round, g1, g2, hgen, hc, hreg,
      Bool.false_eq_true, if_false]
  refine ⟨_, _, reactLoop_halt env _ ctx _ hround, by simp, by simp,
    rfl, rfl, rfl, by simp [ExecutionResult.mkFailure],
    by simp [ExecutionResult.mkFailure]⟩

/-- C6 witness: the unregistered tool name `foo` ends the run with the
`Tool not found` error and an unchanged tool-call trail. -/
theorem unknown_tool_ends_run_without_record_witness :
    ∃ ctxF r, reactLoop unknownToolEnv sampleContext =
        (.failure (.toolNotFound "foo".data), ctxF) ∧
      ctxF.tool_calls = sampleContext.tool_calls ∧
      ctxF.thoughts = sampleContext.thoughts ++ ["TOOL: foo(1)".data] ∧
      finish (.failure (.toolNotFound "foo".data)) ctxF 4 = .ok r ∧
      r.success = false ∧
      r.stop_reason = .error ("Tool not found: ".data ++ "foo".data) ∧
      r.tool_calls = sampleContext.tool_calls ∧
      r.thoughts = sampleContext.thoughts ++ ["TOOL: foo(1)".data] :=
  unknown_tool_ends_run_without_record unknownToolEnv sampleContext
    ⟨"TOOL: foo(1)".data, ⟨1, 1⟩⟩ "foo".data "1".data 4
    (by decide) (by decide) (by decide) (by decide) (by decide)

/-- C8 counterexample: the claim asserts `total_tokens()` is monotonically
non-decreasing across `add_tokens` calls, but the `u32` accumulators wrap at
`2 ^ 32`: after accumulating `u32::MAX` input tokens, adding one more input
token drops the reported total from `u32::MAX` to `0`. -/
theorem total_tokens_wraps_at_u32 :
    (((ExecutionContext.new "c".data 1 1).add_tokens
        ⟨2 ^ 32 - 1, 0⟩).add_tokens ⟨1, 0⟩).totalTokens <
      ((ExecutionContext.new "c".data 1 1).add_tokens
        ⟨2 ^ 32 - 1, 0⟩).totalTokens := by
  decide

/-- The token accumulator after folding a list of usages into a context whose
accumulators are in `u32` range. -/
theorem totalTokens_foldl (us : List TokenUsage) :
    ∀ ctx : ExecutionContext,
      ctx.total_tokens.input_tokens < 2 ^ 32 →
      ctx.total_tokens.output_tokens < 2 ^ 32 →
      (us.foldl ExecutionContext.add_tokens ctx).totalTokens =
        (ctx.total_tokens.input_tokens + ctx.total_tokens.output_tokens +
          (us.map (fun u => u.input_tokens + u.output_tokens)).sum) %
          2 ^ 32 := by
  induction us with
  | nil =>
    intro ctx h1 h2
    simp [ExecutionContext.totalTokens]
  | cons u us ih =>
    intro ctx h1 h2
    simp only [List.foldl_cons, List.map_cons, List.sum_cons]
    rw [ih (ctx.add_tokens u) (by simp [Nat.mod_lt]) (by simp [Nat.mod_lt])]
    simp only [ExecutionContext.add_tokens]
    omega

/-- C8 amended: after every sequence of `add_tokens` calls on a fresh
context, `total_tokens()` equals the sum over all recorded usages of
`input_tokens + output_tokens` reduced modulo `2 ^ 32` (the `u32` wrapping of
the source), and each `add_tokens` call leaves `total_tokens()` greater than
or equal to its previous value provided the updated running sum still fits in
a `u32`. -/
theorem total_tokens_mod_sum_and_monotone :
    (∀ (id : Str) (mi t : Nat) (us : List TokenUsage),
      (us.foldl ExecutionContext.add_tokens
          (ExecutionContext.new id mi t)).totalTokens =
        (us.map (fun u => u.input_tokens + u.output_tokens)).sum % 2 ^ 32) ∧
    (∀ (ctx : ExecutionContext) (u : TokenUsage),
      ctx.total_tokens.input_tokens + u.input_tokens +
        (ctx.total_tokens.output_tokens + u.output_tokens) < 2 ^ 32 →
      ctx.totalTokens ≤ (ctx.add_tokens u).totalTokens) := by
  constructor
  · intro id mi t us
    rw [totalTokens_foldl us (ExecutionContext.new id mi t)
      (by simp [ExecutionContext.new]) (by simp [ExecutionContext.new])]
    simp [ExecutionContext.new]
  · intro ctx u h
    simp only [ExecutionContext.totalTokens, ExecutionContext.add_tokens]
    omega

/-- C8 witness: the running-sum equation on one concrete usage list and the
monotonicity of one non-overflowing `add_tokens` call on the fresh sample
context. -/
theorem total_tokens_mod_sum_and_monotone_witness :
    ((([⟨1, 2⟩] : List TokenUsage).foldl ExecutionContext.add_tokens
        (ExecutionContext.new "w2".data 1 1)).totalTokens =
      (([⟨1, 2⟩] : List TokenUsage).map
        (fun u => u.input_tokens + u.output_tokens)).sum % 2 ^ 32) ∧
    (sampleContext.total_tokens.input_tokens + 3 +
        (sampleContext.total_tokens.output_tokens + 4) < 2 ^ 32 ∧
      sampleContext.totalTokens ≤
        (sampleContext.add_tokens ⟨3, 4⟩).totalTokens) :=
  ⟨total_tokens_mod_sum_and_monotone.1 "w2".data 1 1 [⟨1, 2⟩],
   by decide,
   total_tokens_mod_sum_and_monotone.2 sampleContext ⟨3, 4⟩ (by decide)⟩

/-- C10 counterexample: the claim asserts `extract_tool_call` is total, but
on the input `"TOOL: )("` — where the first `')'` of the tail precedes the
first `'('` — the Rust slice `tool_part[paren_pos + 1..end_paren]` has its
start beyond its end and panics. -/
theorem extract_tool_call_panics_on_reversed_parens :
    ReActStrategy.extract_tool_call "TOOL: )(".data = .error () ∧
    reversedParens "TOOL: )(".data = true := by
  refine ⟨by decide, by decide⟩

/-- C10 amended: `extract_tool_call` returns `Some(tool_name, argument)` or
`None` without panicking for exactly those inputs that do not satisfy the
reversed-parentheses condition (first `')'` of the trimmed `"TOOL:"` tail
strictly before its first `'('`); on reversed-parentheses inputs it panics. -/
theorem extract_tool_call_total_unless_reversed_parens (r : Str) :
    (∃ v, ReActStrategy.extract_tool_call r = .ok v) ↔
      reversedParens r = false := by
  unfold ReActStrategy.extract_tool_call reversedParens
  cases h1 : findSub toolMarker r with
  | none => simp
  | some ts =>
    dsimp only
    cases h2 : findChar '(' (trim (r.drop (ts + 5))) with
    | none => simp
    | some p =>
      cases h3 : findChar ')' (trim (r.drop (ts + 5))) with
      | none => simp
      | some e =>
        by_cases hle : p + 1 ≤ e
        · simp [hle]
        · simp [hle]

end Namra
